import Mathlib

/-!
A shallow embedding of the temperature logger (`temp_logger2.py`) and proofs
about its parsing, schema-reconciliation and per-cycle recording behaviour.

Modelling conventions:
* A line of modem output is a `String`; character-level reasoning uses `String.data`.
* The persisted CSV file is `Option (List (List String))`: `none` models a file
  that does not exist yet (a read raises `FileNotFoundError`), `some rows` models
  a file whose successive CSV records are `rows`.
* Fault injection: `Faults.headerWriteFails` models the `open(filename, 'w')`
  inside `update_csv_headers` raising an OS error, `Faults.appendFails` models
  the `open(filename, mode='a')` inside `log_to_csv` raising.  In the Python
  source the former is not inside any `try` block while the latter is caught by
  `except Exception`; the embedding mirrors that with `Except`.
* The regular expression `\+QTEMP:"([^\x22]+)",\s*"(\d+)"` used with `re.match`
  is embedded as the executable matcher `pLine`: `re.match` anchors at the start
  of the line and allows trailing characters, and every greedy class in the
  pattern is disjoint from the character that follows it, so maximal-munch
  scanning (`takeWhile` / `dropWhile`) is exact.
-/

set_option autoImplicit false

namespace TempLogger

/-! ### Character classes of the regular expression -/

/-- `[^"]`: any character other than a double quote. -/
def nonQ (c : Char) : Bool := c != '"'

/-- Python's `\s` on the ASCII range: space, tab, newline, carriage return,
vertical tab and form feed. -/
def isPySpace (c : Char) : Bool :=
  c = ' ' || c = '\t' || c = '\n' || c = '\r' || c = Char.ofNat 11 || c = Char.ofNat 12

/-- Value of a digit string, as computed by Python's `int`. -/
def digitsVal (ds : List Char) : Nat :=
  ds.foldl (fun a c => a * 10 + (c.toNat - 48)) 0

/-! ### Deterministic matcher primitives -/

/-- Consume an exact literal at the front of the input. -/
def stripLit : List Char → List Char → Option (List Char)
  | [], cs => some cs
  | _ :: _, [] => none
  | l :: ls, c :: cs => if c = l then stripLit ls cs else none

/-- Consume one expected character. -/
def expectChar (c : Char) : List Char → Option (List Char)
  | [] => none
  | x :: xs => if x = c then some xs else none

/-- The matcher of `re.match(r'\+QTEMP:"([^\x22]+)",\s*"(\d+)"', line)`
(`temp_logger2.py` line 20): literal `+QTEMP:"`, a nonempty run of non-quote
characters (the sensor name), `",`, optional whitespace, and a nonempty run of
digits inside quotes; anything after the closing quote is ignored.  Returns the
two capture groups, the second one already through `int`. -/
def pLine (cs : List Char) : Option (List Char × Nat) :=
  match stripLit "+QTEMP:\"".data cs with
  | none => none
  | some r0 =>
    if (r0.takeWhile nonQ).isEmpty then none else
    match expectChar '"' (r0.dropWhile nonQ) with
    | none => none
    | some r2 =>
      match expectChar ',' r2 with
      | none => none
      | some r3 =>
        match expectChar '"' (r3.dropWhile isPySpace) with
        | none => none
        | some r5 =>
          if (r5.takeWhile Char.isDigit).isEmpty then none else
          match expectChar '"' (r5.dropWhile Char.isDigit) with
          | none => none
          | some _ => some (r0.takeWhile nonQ, digitsVal (r5.takeWhile Char.isDigit))

/-- String-level wrapper of `pLine`. -/
def parseLine (s : String) : Option (String × Nat) :=
  match pLine s.data with
  | some (n, v) => some (String.mk n, v)
  | none => none

/-- Modelled from the spec: the sensor-line grammar as the specification words
it (an *optional* leading `+QTEMP:` marker, a quoted sensor-name token, a
separator with optional whitespace, and a *quoted or bare* numeric token).
This is the spec-side definition used to compare the specified grammar with
the one the code implements (`pLine`). -/
def specSensorLine (cs : List Char) : Bool :=
  let body := match stripLit "+QTEMP:".data cs with
    | some r => r
    | none => cs
  match expectChar '"' body with
  | none => false
  | some r0 =>
    let name := r0.takeWhile nonQ
    if name.isEmpty then false else
    match expectChar '"' (r0.dropWhile nonQ) with
    | none => false
    | some r2 =>
      match expectChar ',' r2 with
      | none => false
      | some r3 =>
        let r4 := r3.dropWhile isPySpace
        match expectChar '"' r4 with
        | some r5 =>
          let ds := r5.takeWhile Char.isDigit
          !ds.isEmpty && (expectChar '"' (r5.dropWhile Char.isDigit)).isSome
        | none =>
          !(r4.takeWhile Char.isDigit).isEmpty

/-! ### The per-cycle snapshot (a Python `dict` as an insertion-ordered
association list) -/

/-- `d[k]` lookup: first (and, by construction, only) binding of `k`. -/
def lookupTd : List (String × Nat) → String → Option Nat
  | [], _ => none
  | (k, v) :: t, n => if k = n then some v else lookupTd t n

/-- Overwrite the value of the binding for `k`, leaving other bindings alone. -/
def replaceVal (k : String) (v : Nat) (p : String × Nat) : String × Nat :=
  if p.1 = k then (k, v) else p

/-- `d[k] = v` on a Python dict: overwrite in place if the key is present
(keeping its position), otherwise append the new binding. -/
def dictInsert (td : List (String × Nat)) (k : String) (v : Nat) : List (String × Nat) :=
  if k ∈ td.map (fun p => p.1) then td.map (replaceVal k v)
  else td ++ [(k, v)]

/-- The body of the `for line in response_lines` loop (lines 19-23): a matching
line stores its pair in the dict, any other line leaves it untouched. -/
def insertLine (td : List (String × Nat)) (line : String) : List (String × Nat) :=
  match parseLine line with
  | some (n, v) => dictInsert td n v
  | none => td

/-- `extract_temperatures` (`temp_logger2.py` lines 15-25): fold the matcher
over the response lines, building the snapshot dict. -/
def extract_temperatures (response_lines : List String) : List (String × Nat) :=
  response_lines.foldl insertLine []

/-! ### The persisted CSV file and schema reconciliation -/

/-- The CSV file on disk: `none` when it does not exist, otherwise its records. -/
abbrev CsvFile := Option (List (List String))

/-- `next(reader, [])` after opening for read, with `FileNotFoundError` giving
`["Timestamp"]` (`temp_logger2.py` lines 29-34). -/
def headersOf (file : CsvFile) : List String :=
  match file with
  | none => ["Timestamp"]
  | some rows => rows.headD []

/-- The header-growing loop of `update_csv_headers` (lines 36-40): append each
sensor not already present, in the order the sensors are given. -/
def growHeaders (headers : List String) (new_sensors : List String) : List String :=
  new_sensors.foldl (fun acc s => if s ∈ acc then acc else acc ++ [s]) headers

/-- The in-memory schema produced by running the header-growing loop once per
snapshot, starting from the initial `["Timestamp"]` schema of a fresh log. -/
def schemaAfter (snaps : List (List String)) : List String :=
  snaps.foldl growHeaders ["Timestamp"]

/-- `update_csv_headers` (lines 27-48).  When the headers changed, the file is
reopened with mode `'w'` and only the header row is written — mode `'w'`
truncates, so the resulting file holds exactly that one record.  The write is
not guarded by any `try`, so a failing write (modelled by `writeFails`)
escapes as an exception (`Except.error`). -/
def update_csv_headers (file : CsvFile) (writeFails : Bool) (new_sensors : List String) :
    Except Unit (List String × CsvFile) :=
  let headers := headersOf file
  let updated_headers := growHeaders headers new_sensors
  if updated_headers = headers then Except.ok (updated_headers, file)
  else if writeFails then Except.error ()
  else Except.ok (updated_headers, some [updated_headers])

/-- `temperature_data.get(sensor, "")`, stringified as `csv.writer` does. -/
def fieldOf (td : List (String × Nat)) (s : String) : String :=
  match lookupTd td s with
  | some v => Nat.repr v
  | none => ""

/-- The row built at line 60: the timestamp, then one field per header column
after `Timestamp` (`headers[1:]`). -/
def makeRow (ts : String) (headers : List String) (td : List (String × Nat)) : List String :=
  ts :: (headers.drop 1).map (fieldOf td)

/-- Faults injected into one cycle's file operations. -/
structure Faults where
  headerWriteFails : Bool
  appendFails : Bool
  deriving DecidableEq

/-- `log_to_csv` (lines 50-63): reconcile headers first (errors there
propagate), then append one row; the append is inside `try`/`except`, so a
failing append only loses the row.  Opening with mode `'a'` creates a missing
file, hence `file1.getD []`. -/
def log_to_csv (file : CsvFile) (faults : Faults) (ts : String) (td : List (String × Nat)) :
    Except Unit CsvFile :=
  match update_csv_headers file faults.headerWriteFails (td.map (fun p => p.1)) with
  | Except.error e => Except.error e
  | Except.ok (headers, file1) =>
    if faults.appendFails then Except.ok file1
    else Except.ok (some ((file1.getD []) ++ [makeRow ts headers td]))

/-! ### One iteration of the polling loop -/

/-- `response_line.startswith("+QTEMP")`. -/
def startsQTEMP (l : String) : Bool := decide (l.data.take 6 = "+QTEMP".data)

/-- The drain loop (lines 96-103): keep a received line only when it is
nonempty and starts with `+QTEMP`. -/
def drain (raw : List String) : List String :=
  raw.filter (fun l => decide (l.data ≠ []) && startsQTEMP l)

/-- One poll cycle (lines 96-110): drain, and when at least one line was
kept, parse and record. -/
def cycle (file : CsvFile) (faults : Faults) (ts : String) (raw : List String) :
    Except Unit CsvFile :=
  let response_lines := drain raw
  if response_lines.isEmpty then Except.ok file
  else log_to_csv file faults ts (extract_temperatures response_lines)

/-- The inputs one cycle of the `while True` loop receives from the outside
world: the injected faults, the cycle's timestamp, and the raw lines drained
from the serial port. -/
structure CycleIn where
  faults : Faults
  ts : String
  lines : List String

/-- Successive cycles of the `while True` loop (lines 88-113): an exception
escaping one cycle is caught only by the `except Exception` around the whole
loop, i.e. it terminates the loop, so `runCycles` stops at the first
`Except.error`. -/
def runCycles (file : CsvFile) : List CycleIn → Except Unit CsvFile
  | [] => Except.ok file
  | c :: cs =>
    match cycle file c.faults c.ts c.lines with
    | Except.error e => Except.error e
    | Except.ok file1 => runCycles file1 cs

/-! ### Helper lemmas about the matcher primitives -/

lemma stripLit_app : ∀ (l r : List Char), stripLit l (l ++ r) = some r
  | [], r => rfl
  | c :: l, r => by simp [stripLit, stripLit_app l r]

lemma stripLit_eq_some : ∀ (l cs r : List Char), stripLit l cs = some r ↔ cs = l ++ r
  | [], cs, r => by simp [stripLit]
  | c :: l, [], r => by simp [stripLit]
  | c :: l, x :: cs, r => by
      simp only [stripLit]
      by_cases hx : x = c
      · subst hx; simp [stripLit_eq_some l cs r]
      · simp [hx]

lemma expectChar_eq_some (c : Char) : ∀ (l r : List Char), expectChar c l = some r ↔ l = c :: r
  | [], r => by simp [expectChar]
  | x :: l, r => by
      simp only [expectChar]
      by_cases hx : x = c
      · subst hx; simp
      · simp [hx]

lemma expectChar_self (c : Char) (r : List Char) : expectChar c (c :: r) = some r := by
  simp [expectChar]

lemma spanApp {α : Type} (p : α → Bool) (x : α) (t : List α) (hx : p x = false) :
    ∀ (l1 : List α), (∀ a ∈ l1, p a = true) →
      (l1 ++ x :: t).takeWhile p = l1 ∧ (l1 ++ x :: t).dropWhile p = x :: t
  | [], _ => by simp [List.takeWhile, List.dropWhile, hx]
  | a :: l1, h1 => by
      have ha : p a = true := h1 a (by simp)
      have ih := spanApp p x t hx l1 (fun b hb => h1 b (by simp [hb]))
      simp [List.takeWhile, List.dropWhile, ha, ih.1, ih.2]

lemma mem_takeWhile {α : Type} (p : α → Bool) :
    ∀ (l : List α), ∀ a ∈ l.takeWhile p, p a = true
  | [], a, ha => by simp [List.takeWhile] at ha
  | x :: l, a, ha => by
      by_cases hx : p x = true
      · rw [List.takeWhile_cons, if_pos hx] at ha
        rcases List.mem_cons.mp ha with h | h
        · subst h; exact hx
        · exact mem_takeWhile p l a h
      · rw [List.takeWhile_cons, if_neg hx] at ha
        simp at ha

lemma ne_nil_isEmpty {α : Type} {l : List α} (h : l ≠ []) : l.isEmpty = false := by
  cases l with
  | nil => exact absurd rfl h
  | cons a l => rfl

lemma span_eq (p : Char → Bool) (l : List Char) :
    l.takeWhile p ++ l.dropWhile p = l := List.takeWhile_append_dropWhile p l

/-- Claim C2 (amended): `pLine` accepts a line iff it starts with the mandatory
marker `+QTEMP:` followed by a quoted nonempty sensor name, a comma, optional
whitespace, and a *quoted* nonempty digit string (bare numeric tokens and lines
without the marker are rejected); trailing characters are ignored, and the
recorded pair is the name together with the numeric value of the digits. -/
theorem sensor_line_grammar (cs name : List Char) (v : Nat) :
    pLine cs = some (name, v) ↔
    ∃ ws ds rest,
      cs = "+QTEMP:\"".data ++ name ++ '"' :: ',' :: (ws ++ '"' :: (ds ++ '"' :: rest)) ∧
      name ≠ [] ∧ (∀ c ∈ name, ¬ c = '"') ∧
      (∀ c ∈ ws, isPySpace c = true) ∧
      ds ≠ [] ∧ (∀ c ∈ ds, c.isDigit = true) ∧
      v = digitsVal ds := by
  constructor
  · intro h
    unfold pLine at h
    split at h
    · exact absurd h (by simp)
    · rename_i r0 h0
      split at h
      · exact absurd h (by simp)
      · rename_i hnameE
        split at h
        · exact absurd h (by simp)
        · rename_i r2 h2
          split at h
          · exact absurd h (by simp)
          · rename_i r3 h3
            split at h
            · exact absurd h (by simp)
            · rename_i r5 h5
              split at h
              · exact absurd h (by simp)
              · rename_i hdsE
                split at h
                · exact absurd h (by simp)
                · rename_i r6 h6
                  rw [Option.some_inj] at h
                  have hn : r0.takeWhile nonQ = name := congrArg Prod.fst h
                  have hv : v = digitsVal (r5.takeWhile Char.isDigit) :=
                    (congrArg Prod.snd h).symm
                  have e0 : cs = "+QTEMP:\"".data ++ r0 := (stripLit_eq_some _ _ _).mp h0
                  have e2 : r0.dropWhile nonQ = '"' :: r2 := (expectChar_eq_some _ _ _).mp h2
                  have e3 : r2 = ',' :: r3 := (expectChar_eq_some _ _ _).mp h3
                  have e5 : r3.dropWhile isPySpace = '"' :: r5 := (expectChar_eq_some _ _ _).mp h5
                  have e6 : r5.dropWhile Char.isDigit = '"' :: r6 := (expectChar_eq_some _ _ _).mp h6
                  have hwsMem := mem_takeWhile isPySpace r3
                  have hdsMem := mem_takeWhile Char.isDigit r5
                  have er0 := span_eq nonQ r0
                  rw [hn, e2, e3] at er0
                  have er3 := span_eq isPySpace r3
                  rw [e5] at er3
                  have er5 := span_eq Char.isDigit r5
                  rw [e6] at er5
                  generalize hW : r3.takeWhile isPySpace = W at er3 hwsMem
                  generalize hD : r5.takeWhile Char.isDigit = D at er5 hdsMem hdsE hv
                  refine ⟨W, D, r6, ?_, ?_, ?_, hwsMem, ?_, hdsMem, hv⟩
                  · rw [e0, ← er0, ← er3, ← er5]
                    simp
                  · intro hnil
                    rw [hn, hnil] at hnameE
                    exact hnameE rfl
                  · intro c hc
                    have := mem_takeWhile nonQ r0 c (hn ▸ hc)
                    simpa [nonQ] using this
                  · intro hnil
                    rw [hnil] at hdsE
                    exact hdsE rfl
  · rintro ⟨ws, ds, rest, hcs, hname, hnq, hws, hds, hdig, hv⟩
    subst hcs hv
    have hnq' : ∀ c ∈ name, nonQ c = true := by
      intro c hc
      simpa [nonQ] using hnq c hc
    have sp1 := spanApp nonQ '"' (',' :: (ws ++ '"' :: (ds ++ '"' :: rest))) rfl name hnq'
    have sp2 := spanApp isPySpace '"' (ds ++ '"' :: rest) rfl ws hws
    have sp3 := spanApp Char.isDigit '"' rest rfl ds hdig
    simp only [pLine, List.append_assoc, stripLit_app, sp1.1, sp1.2, sp2.1, sp2.2, sp3.1,
      sp3.2, expectChar_self, ne_nil_isEmpty hname, ne_nil_isEmpty hds,
      Bool.false_eq_true, if_false]


/-! ### The snapshot dict: overwrite and ordering behaviour -/

lemma replaceVal_eq (k : String) (v : Nat) (a : String) (b : Nat) :
    replaceVal k v (a, b) = if a = k then (k, v) else (a, b) := rfl

lemma lookupTd_replace_self (k : String) (v : Nat) (td : List (String × Nat))
    (hk : k ∈ td.map (fun p => p.1)) :
    lookupTd (td.map (replaceVal k v)) k = some v := by
  induction td with
  | nil => simp at hk
  | cons p td ih =>
    obtain ⟨a, b⟩ := p
    simp only [List.map_cons, replaceVal_eq]
    by_cases ha : a = k
    · rw [if_pos ha]
      simp [lookupTd]
    · rw [if_neg ha]
      have hk' : k ∈ td.map (fun p => p.1) := by
        rcases List.mem_cons.mp hk with h | h
        · exact absurd h.symm ha
        · exact h
      simp [lookupTd, ha, ih hk']

lemma lookupTd_replace_other (k : String) (v : Nat) (n : String) (hn : ¬ k = n)
    (td : List (String × Nat)) :
    lookupTd (td.map (replaceVal k v)) n = lookupTd td n := by
  induction td with
  | nil => rfl
  | cons p td ih =>
    obtain ⟨a, b⟩ := p
    simp only [List.map_cons, replaceVal_eq]
    by_cases ha : a = k
    · rw [if_pos ha]
      subst ha
      simp [lookupTd, hn, ih]
    · rw [if_neg ha]
      by_cases han : a = n
      · simp [lookupTd, han]
      · simp [lookupTd, han, ih]

lemma lookupTd_append (n : String) (t1 t2 : List (String × Nat)) :
    lookupTd (t1 ++ t2) n =
      match lookupTd t1 n with
      | some v => some v
      | none => lookupTd t2 n := by
  induction t1 with
  | nil => rfl
  | cons p t1 ih =>
    obtain ⟨a, b⟩ := p
    by_cases ha : a = n
    · simp [lookupTd, ha]
    · simp [lookupTd, ha, ih]

lemma lookupTd_not_mem (n : String) (td : List (String × Nat))
    (h : n ∉ td.map (fun p => p.1)) : lookupTd td n = none := by
  induction td with
  | nil => rfl
  | cons p td ih =>
    obtain ⟨a, b⟩ := p
    have ha : ¬ a = n := fun e => h (by simp [e])
    have h' : n ∉ td.map (fun p => p.1) := fun e => h (by simp [e])
    simp [lookupTd, ha, ih h']

lemma lookupTd_dictInsert (td : List (String × Nat)) (k : String) (v : Nat) (n : String) :
    lookupTd (dictInsert td k v) n = if n = k then some v else lookupTd td n := by
  unfold dictInsert
  by_cases hk : k ∈ td.map (fun p => p.1)
  · rw [if_pos hk]
    by_cases hn : n = k
    · subst hn
      rw [if_pos rfl]
      exact lookupTd_replace_self n v td hk
    · rw [if_neg hn]
      exact lookupTd_replace_other k v n (fun e => hn e.symm) td
  · rw [if_neg hk, lookupTd_append]
    by_cases hn : n = k
    · subst hn
      rw [lookupTd_not_mem n td hk, if_pos rfl]
      simp [lookupTd]
    · rw [if_neg hn]
      have hkn : ¬ k = n := fun e => hn e.symm
      have h1 : lookupTd [(k, v)] n = none := by
        simp [lookupTd, hkn]
      rw [h1]
      cases lookupTd td n <;> rfl

lemma keys_dictInsert (td : List (String × Nat)) (k : String) (v : Nat) :
    (dictInsert td k v).map (fun p => p.1) =
      if k ∈ td.map (fun p => p.1) then td.map (fun p => p.1)
      else td.map (fun p => p.1) ++ [k] := by
  unfold dictInsert
  by_cases hk : k ∈ td.map (fun p => p.1)
  · rw [if_pos hk, if_pos hk, List.map_map]
    refine List.map_congr_left ?_
    intro p _
    obtain ⟨a, b⟩ := p
    simp only [Function.comp, replaceVal_eq]
    by_cases hp : a = k
    · simp [hp]
    · simp [hp]
  · rw [if_neg hk, if_neg hk]
    simp


lemma lookupTd_foldl (n : String) :
    ∀ (ls : List String) (td : List (String × Nat)),
      lookupTd (ls.foldl insertLine td) n =
        match ((ls.filterMap parseLine).filter (fun p => decide (p.1 = n))).getLast? with
        | some p => some p.2
        | none => lookupTd td n
  | [], td => rfl
  | l :: ls, td => by
      rw [List.foldl_cons, lookupTd_foldl n ls (insertLine td l), List.filterMap_cons]
      cases hp : parseLine l with
      | none => simp [insertLine, hp]
      | some q =>
        obtain ⟨m, v⟩ := q
        simp only [insertLine, hp]
        by_cases hm : m = n
        · subst hm
          rw [List.filter_cons_of_pos (by simp)]
          cases hF : (((ls.filterMap parseLine).filter (fun p => decide (p.1 = m))).getLast?) with
          | none =>
            rw [List.getLast?_eq_none_iff.mp hF, List.getLast?_singleton]
            simp [lookupTd_dictInsert]
          | some p =>
            cases h : (((ls.filterMap parseLine).filter (fun p => decide (p.1 = m)))) with
            | nil => rw [h] at hF; exact absurd hF (by simp)
            | cons x xs =>
              rw [h] at hF
              rw [List.getLast?_cons_cons, hF]
        · have hmn : List.filter (fun p => decide (p.1 = n))
              ((m, v) :: List.filterMap parseLine ls) =
              List.filter (fun p => decide (p.1 = n)) (List.filterMap parseLine ls) :=
            List.filter_cons_of_neg (by simp [hm])
          rw [hmn]
          have hnm : ¬ (n = m) := fun e => hm e.symm
          cases hF : (((ls.filterMap parseLine).filter (fun p => decide (p.1 = n))).getLast?) with
          | none => simp [lookupTd_dictInsert, hnm]
          | some p => rfl

lemma keys_foldl :
    ∀ (ls : List String) (td : List (String × Nat)),
      (ls.foldl insertLine td).map (fun p => p.1) =
        growHeaders (td.map (fun p => p.1)) ((ls.filterMap parseLine).map (fun p => p.1))
  | [], td => rfl
  | l :: ls, td => by
      rw [List.foldl_cons, keys_foldl ls (insertLine td l), List.filterMap_cons]
      cases hp : parseLine l with
      | none => simp [insertLine, hp]
      | some q =>
        obtain ⟨m, v⟩ := q
        simp only [insertLine, hp, List.map_cons, growHeaders, List.foldl_cons]
        rw [keys_dictInsert]

/-- Claim C6: when a sensor name occurs in several matching lines of one cycle,
the snapshot holds the value of its last occurrence, and the snapshot's key
order is the order in which each name was first matched (first-occurrence
de-duplication of the matched names, no sorting). -/
theorem later_occurrence_wins (response_lines : List String) (n : String) :
    lookupTd (extract_temperatures response_lines) n =
      (((response_lines.filterMap parseLine).filter (fun p => decide (p.1 = n))).getLast?).map
        (fun p => p.2) ∧
    (extract_temperatures response_lines).map (fun p => p.1) =
      growHeaders [] ((response_lines.filterMap parseLine).map (fun p => p.1)) := by
  constructor
  · rw [extract_temperatures, lookupTd_foldl n response_lines []]
    cases hF : (((response_lines.filterMap parseLine).filter (fun p => decide (p.1 = n))).getLast?) with
    | none => rfl
    | some p => rfl
  · rw [extract_temperatures, keys_foldl response_lines []]
    rfl


/-! ### Schema reconciliation: monotonicity, idempotence, and the rewrite hazard -/

lemma growHeaders_extend (sensors : List String) (headers : List String) :
    ∃ t, growHeaders headers sensors = headers ++ t := by
  induction sensors generalizing headers with
  | nil => exact ⟨[], by simp [growHeaders]⟩
  | cons s ss ih =>
    show ∃ t, growHeaders (if s ∈ headers then headers else headers ++ [s]) ss = headers ++ t
    by_cases hs : s ∈ headers
    · rw [if_pos hs]
      exact ih headers
    · rw [if_neg hs]
      obtain ⟨t, ht⟩ := ih (headers ++ [s])
      exact ⟨[s] ++ t, by rw [ht, List.append_assoc]⟩

lemma foldl_growHeaders_extend (snaps : List (List String)) :
    ∀ acc : List String, ∃ t, snaps.foldl growHeaders acc = acc ++ t := by
  induction snaps with
  | nil => exact fun acc => ⟨[], by simp⟩
  | cons s snaps ih =>
    intro acc
    rw [List.foldl_cons]
    obtain ⟨u, hu⟩ := growHeaders_extend s acc
    obtain ⟨t, ht⟩ := ih (growHeaders acc s)
    exact ⟨u ++ t, by rw [ht, hu, List.append_assoc]⟩

lemma growHeaders_all_mem (ns : List String) :
    ∀ hs : List String, (∀ s ∈ ns, s ∈ hs) → growHeaders hs ns = hs := by
  induction ns with
  | nil => exact fun hs _ => rfl
  | cons n ns ih =>
    intro hs h
    show growHeaders (if n ∈ hs then hs else hs ++ [n]) ns = hs
    rw [if_pos (h n (by simp))]
    exact ih hs (fun s hsn => h s (by simp [hsn]))

/-- Claim C3: schema growth is monotonic and order-preserving: after any
further snapshots are processed, the schema reached after a prefix of the
snapshot sequence is still an initial segment (the final schema extends it on
the right only, so no column is ever removed or reordered). -/
theorem schema_growth_monotone (snaps : List (List String)) (k : Nat) :
    ∃ t, schemaAfter (snaps.take k) ++ t = schemaAfter snaps := by
  obtain ⟨t, ht⟩ :=
    foldl_growHeaders_extend (snaps.drop k) (schemaAfter (snaps.take k))
  refine ⟨t, ?_⟩
  conv_rhs => rw [schemaAfter, ← List.take_append_drop k snaps, List.foldl_append]
  exact ht.symm

/-- Claim C8: reconciling with a snapshot whose sensor names are all already
columns returns the schema unchanged and never rewrites the persisted file
(the result holds even when a header write would fail, because none is
attempted). -/
theorem schema_reconciliation_idempotent (file : CsvFile) (w : Bool) (ns : List String)
    (h : ∀ s ∈ ns, s ∈ headersOf file) :
    update_csv_headers file w ns = Except.ok (headersOf file, file) := by
  simp [update_csv_headers, growHeaders_all_mem ns (headersOf file) h]

/-- Witness for C8: a snapshot repeating the known sensor `a` leaves the file
`Timestamp,a` alone even though any attempted write would fail. -/
theorem schema_reconciliation_idempotent_witness :
    update_csv_headers (some [["Timestamp", "a"]]) true ["a"] =
      Except.ok (["Timestamp", "a"], some [["Timestamp", "a"]]) :=
  schema_reconciliation_idempotent (some [["Timestamp", "a"]]) true ["a"] (by decide)

/-- Claim C1: the failing input for the header-rewrite hazard.  A log holding
the header `Timestamp,a` and one data row gains the new sensor `b`: the file is
reopened with mode `'w'` and only the new header is written back, so the data
row is lost.  The same cycle then appends the new row against the truncated
file. -/
theorem header_rewrite_loses_rows :
    update_csv_headers (some [["Timestamp", "a"], ["2024-01-01 00:00:00.000", "5"]])
        false ["b"] =
      Except.ok (["Timestamp", "a", "b"], some [["Timestamp", "a", "b"]]) ∧
    cycle (some [["Timestamp", "a"], ["2024-01-01 00:00:00.000", "5"]]) ⟨false, false⟩
        "2024-01-01 00:00:01.000" ["+QTEMP:\"b\",\"7\""] =
      Except.ok (some [["Timestamp", "a", "b"], ["2024-01-01 00:00:01.000", "", "7"]]) := by
  constructor
  · rfl
  · rfl


/-! ### Error containment in the polling loop -/

lemma update_csv_headers_ok (file : CsvFile) (ns : List String) :
    ∃ out, update_csv_headers file false ns = Except.ok out := by
  by_cases hc : growHeaders (headersOf file) ns = headersOf file
  · exact ⟨(headersOf file, file), by simp [update_csv_headers, hc]⟩
  · exact ⟨(growHeaders (headersOf file) ns, some [growHeaders (headersOf file) ns]),
      by simp [update_csv_headers, hc]⟩

lemma log_to_csv_ok (file : CsvFile) (faults : Faults) (ts : String)
    (td : List (String × Nat)) (h : faults.headerWriteFails = false) :
    ∃ f1, log_to_csv file faults ts td = Except.ok f1 := by
  unfold log_to_csv
  rw [h]
  obtain ⟨out, hout⟩ := update_csv_headers_ok file (td.map (fun p => p.1))
  rw [hout]
  obtain ⟨headers, file1⟩ := out
  by_cases ha : faults.appendFails
  · exact ⟨file1, by simp [ha]⟩
  · exact ⟨some (Option.getD file1 [] ++ [makeRow ts headers td]), by simp [ha]⟩

lemma cycle_ok (file : CsvFile) (faults : Faults) (ts : String) (raw : List String)
    (h : faults.headerWriteFails = false) :
    ∃ f1, cycle file faults ts raw = Except.ok f1 := by
  unfold cycle
  by_cases he : (drain raw).isEmpty
  · exact ⟨file, by simp [he]⟩
  · simp only [he, if_false, Bool.false_eq_true]
    exact log_to_csv_ok file faults ts (extract_temperatures (drain raw)) h

/-- Claim C4 (amended): an error raised while appending the row is contained —
with header writes succeeding, every cycle of the loop completes and the run
never terminates early, whatever append faults are injected.  (An error while
rewriting the header, by contrast, escapes: see the counterexample.) -/
theorem append_errors_contained (file : CsvFile) (cycles : List CycleIn)
    (h : ∀ c ∈ cycles, c.faults.headerWriteFails = false) :
    ∃ f1, runCycles file cycles = Except.ok f1 := by
  induction cycles generalizing file with
  | nil => exact ⟨file, rfl⟩
  | cons c cs ih =>
    obtain ⟨f1, h1⟩ := cycle_ok file c.faults c.ts c.lines (h c (by simp))
    unfold runCycles
    rw [h1]
    exact ih f1 (fun d hd => h d (by simp [hd]))

/-- Witness for C4 (amended): both cycles suffer an append failure, yet the run
completes (each cycle merely loses its row). -/
theorem append_errors_contained_witness :
    ∃ f1, runCycles (some [["Timestamp"]])
      [⟨⟨false, true⟩, "t1", ["+QTEMP:\"a\",\"1\""]⟩,
       ⟨⟨false, true⟩, "t2", ["+QTEMP:\"a\",\"2\""]⟩] = Except.ok f1 :=
  append_errors_contained (some [["Timestamp"]])
    [⟨⟨false, true⟩, "t1", ["+QTEMP:\"a\",\"1\""]⟩,
     ⟨⟨false, true⟩, "t2", ["+QTEMP:\"a\",\"2\""]⟩] (by decide)

/-- Counterexample to Claim C4 as stated: a persistence error during the header
rewrite of cycle 1 (new sensor `a` forces a rewrite, whose write fails) is NOT
contained — the run terminates with the error and cycle 2 is never executed,
whereas the claim promises the loop continues with the next cycle. -/
theorem persistence_error_terminates :
    runCycles (some [["Timestamp"]])
      [⟨⟨true, false⟩, "t1", ["+QTEMP:\"a\",\"1\""]⟩,
       ⟨⟨false, false⟩, "t2", ["+QTEMP:\"a\",\"2\""]⟩] = Except.error () := by
  rfl


/-! ### Draining and no-data cycles -/

lemma cycle_drain_nil (file : CsvFile) (faults : Faults) (ts : String) (raw : List String)
    (h : drain raw = []) : cycle file faults ts raw = Except.ok file := by
  simp [cycle, h]

/-- Claim C7: a cycle whose drained-line set is empty appends no row and leaves
the persisted file — header included — exactly as it was. -/
theorem empty_drain_no_effect (file : CsvFile) (faults : Faults) (ts : String)
    (raw : List String) (h : drain raw = []) :
    cycle file faults ts raw = Except.ok file :=
  cycle_drain_nil file faults ts raw h

/-- Witness for C7: a cycle receiving only an empty line and a non-`+QTEMP`
line drains nothing and leaves the missing file missing. -/
theorem empty_drain_no_effect_witness :
    cycle none ⟨false, false⟩ "t" ["OK", ""] = Except.ok none :=
  empty_drain_no_effect none ⟨false, false⟩ "t" ["OK", ""] (by decide)

/-- Claim C9: the drain keeps exactly the nonempty lines starting with
`+QTEMP`; consequently a cycle all of whose received lines lack that marker
writes no row and changes nothing, even though lines were drained. -/
theorem drain_keeps_only_qtemp (file : CsvFile) (faults : Faults) (ts : String)
    (raw : List String) :
    (∀ l, l ∈ drain raw ↔ (l ∈ raw ∧ l.data ≠ [] ∧ startsQTEMP l = true)) ∧
    ((∀ l ∈ raw, startsQTEMP l = false) → cycle file faults ts raw = Except.ok file) := by
  constructor
  · intro l
    simp [drain, List.mem_filter, and_assoc]
  · intro h
    have hd : drain raw = [] := by
      rw [drain, List.filter_eq_nil_iff]
      intro l hl
      simp [h l hl]
    exact cycle_drain_nil file faults ts raw hd

/-- Witness for C9: an `OK` echo and the echoed command `AT+QTEMP` (which does
not *start* with `+QTEMP`) are both dropped, and the cycle has no effect. -/
theorem drain_keeps_only_qtemp_witness :
    cycle none ⟨false, false⟩ "t" ["OK", "AT+QTEMP"] = Except.ok none :=
  (drain_keeps_only_qtemp none ⟨false, false⟩ "t" ["OK", "AT+QTEMP"]).2 (by decide)

lemma foldl_insertLine_id (ls : List String) (td : List (String × Nat))
    (h : ∀ l ∈ ls, parseLine l = none) : ls.foldl insertLine td = td := by
  induction ls generalizing td with
  | nil => rfl
  | cons l ls ih =>
    rw [List.foldl_cons]
    have hl : insertLine td l = td := by simp [insertLine, h l (by simp)]
    rw [hl]
    exact ih td (fun x hx => h x (by simp [hx]))

/-- Claim C10: when at least one drained line carries the `+QTEMP` marker but
none matches the full sensor grammar, the snapshot is empty, the schema is not
touched, and the appended row is the timestamp followed by one empty field per
existing sensor column. -/
theorem unparsed_qtemp_appends_blank_row (file : CsvFile) (ts : String)
    (raw : List String) (h1 : drain raw ≠ []) (h2 : ∀ l ∈ raw, parseLine l = none) :
    cycle file ⟨false, false⟩ ts raw =
      Except.ok (some ((file.getD []) ++
        [ts :: ((headersOf file).drop 1).map (fun _ => "")])) := by
  have hx : extract_temperatures (drain raw) = [] :=
    foldl_insertLine_id (drain raw) []
      (fun l hl => h2 l (List.mem_of_mem_filter hl))
  simp only [cycle, ne_nil_isEmpty h1, Bool.false_eq_true, if_false]
  rw [hx]
  unfold log_to_csv
  have hu : update_csv_headers file false (([] : List (String × Nat)).map (fun p => p.1)) =
      Except.ok (headersOf file, file) := by
    simp [update_csv_headers, growHeaders]
  rw [hu]
  simp only [if_false, Bool.false_eq_true]
  have hrow : makeRow ts (headersOf file) [] =
      ts :: ((headersOf file).drop 1).map (fun _ => "") := rfl
  rw [hrow]

/-- Witness for C10: an unparsable `+QTEMP` line (`+QTEMP: ERROR`) against a
log with one sensor column appends `t9,` (timestamp plus one empty field). -/
theorem unparsed_qtemp_appends_blank_row_witness :
    cycle (some [["Timestamp", "a"]]) ⟨false, false⟩ "t9" ["+QTEMP: ERROR"] =
      Except.ok (some [["Timestamp", "a"], ["t9", ""]]) :=
  unparsed_qtemp_appends_blank_row (some [["Timestamp", "a"]]) "t9" ["+QTEMP: ERROR"]
    (by decide) (by decide)


/-! ### Row layout and the sensor-line grammar versus its specification -/

/-- Claim C5: the appended row aligns positionally with the schema: the
timestamp is field 0, and for every sensor column at schema position `i + 1`
the row's field `i + 1` is that column's value — the empty string whenever the
snapshot has no binding for the column. -/
theorem row_alignment (ts : String) (cols : List String) (td : List (String × Nat)) :
    (makeRow ts ("Timestamp" :: cols) td).length = cols.length + 1 ∧
    (makeRow ts ("Timestamp" :: cols) td).head? = some ts ∧
    ∀ i c, cols.get? i = some c →
      (makeRow ts ("Timestamp" :: cols) td).get? (i + 1) = some (fieldOf td c) ∧
      (lookupTd td c = none → fieldOf td c = "") := by
  refine ⟨by simp [makeRow], rfl, ?_⟩
  intro i c hc
  constructor
  · show (cols.map (fieldOf td)).get? i = some (fieldOf td c)
    rw [List.get?_map, hc]
    rfl
  · intro hn
    simp [fieldOf, hn]

/-- Witness for C5: with schema `[Timestamp, a, b]` and snapshot `{b: 7}` the
row is `ts0,,7` — field 1 (column `a`) empty, field 2 (column `b`) `7`. -/
theorem row_alignment_witness :
    (makeRow "ts0" ("Timestamp" :: ["a", "b"]) [("b", 7)]).get? 2 = some "7" ∧
    (makeRow "ts0" ("Timestamp" :: ["a", "b"]) [("b", 7)]).get? 1 = some "" := by
  have h := (row_alignment "ts0" ["a", "b"] [("b", 7)]).2.2
  exact ⟨(h 1 "b" rfl).1, (h 0 "a" rfl).1⟩

/-- Counterexample to Claim C2 as stated: the spec-side grammar
(`specSensorLine`, optional marker and quoted-or-bare value) accepts both the
bare-value line `+QTEMP:"a",45` and the marker-less line `"a","45"`, but the
code's matcher rejects both, so neither pair is recorded. -/
theorem sensor_line_counterexample :
    specSensorLine "+QTEMP:\"a\",45".data = true ∧
    parseLine "+QTEMP:\"a\",45" = none ∧
    specSensorLine "\"a\",\"45\"".data = true ∧
    parseLine "\"a\",\"45\"" = none := ⟨rfl, rfl, rfl, rfl⟩

/-- Witness for C2 (amended): the grammar characterisation instantiated at the
well-formed line `+QTEMP:"a", "45"` (whitespace after the comma), which parses
to the pair `(a, 45)`. -/
theorem sensor_line_grammar_witness :
    pLine "+QTEMP:\"a\", \"45\"".data = some ("a".data, 45) :=
  (sensor_line_grammar "+QTEMP:\"a\", \"45\"".data "a".data 45).mpr
    ⟨[' '], ['4', '5'], [], by decide, by decide, by decide, by decide, by decide,
      by decide, by decide⟩


end TempLogger
